import Mathlib

/-!
Verification of the run_combiner repository (src/run_combiner.py).

The development shallowly embeds the reconciliation and merge-grouping core of
the script as executable Lean functions.  Filesystem and process effects are
made explicit:

* a run directory is a `RunSpec` carrying the data the script reads from disk
  (its path, writability, md5 exit status, file modification times, the names
  listed in its input folder, the lines of its SampleSheet.csv if present,
  which output files already exist, and which external merge invocations fail);
* the pass's observable effects (the `.completed` store lines, mails sent,
  merged outputs written, remnant files removed, source fragments deleted)
  are collected in a `PassSt` record;
* Python exceptions are explicit: the exception types caught by the run loop
  (ValueError, OSError, CalledProcessError, IOError) are the `MergeErr.caught`
  case, while AttributeError, IndexError and NameError, which the script does
  not catch, are a `Crash` that aborts the whole pass.

Regular-expression uses in the script are embedded as character-list scanners
with the exact semantics of the patterns the script uses.
-/

/-- Characters of a string, for the character-level scanners below. -/
def strChars (s : String) : List Char := s.data

/-- Boolean test that `pat` is a leading segment of `l` (used to embed
substring search and Python startswith). -/
def leadsWith : List Char → List Char → Bool
  | [], _ => true
  | _ :: _, [] => false
  | a :: as, b :: bs => a == b && leadsWith as bs

/-- Boolean substring containment of `pat` in `l`, scanning left to right,
embedding re.search for a pattern with no metacharacters. -/
def hasSub (pat : List Char) : List Char → Bool
  | [] => pat.isEmpty
  | c :: rest => leadsWith pat (c :: rest) || hasSub pat rest

/-- Python str.startswith. -/
def strStartsWith (s pre : String) : Bool := leadsWith pre.data s.data

/-- Python str.endswith (used to embed the glob pattern star-dot-gz). -/
def strEndsWith (s suf : String) : Bool := leadsWith suf.data.reverse s.data.reverse

/-- Python str.strip: remove leading and trailing whitespace. -/
def stripStr (s : String) : String :=
  String.mk (((s.data.dropWhile Char.isWhitespace).reverse.dropWhile Char.isWhitespace).reverse)

/-- Python str.split on a comma: splits into the (always nonempty) list of
comma-free segments. -/
def splitComma : List Char → List (List Char)
  | [] => [[]]
  | c :: rest =>
    let r := splitComma rest
    if c = ',' then [] :: r
    else
      match r with
      | [] => [[c]]
      | h :: t => (c :: h) :: t

/-- Python line.split with a comma argument, on strings. -/
def pySplit (s : String) : List String := (splitComma s.data).map String.mk

/-- Numeric value of a digit string (Python int on a digits-only group). -/
def digitsToNat (ds : List Char) : Nat :=
  ds.foldl (fun n c => 10 * n + (c.toNat - 48)) 0

/-- Leftmost match of the pattern underscore-tag-digits-underscore in a
character list, returning the digit run of the first match.  This is the
shared shape of the script's patterns for the sample key (tag S) and the
read direction (tag R): an underscore, the tag character, one or more
digits, then another underscore. -/
def findTagDigits (tag : Char) : List Char → Option (List Char)
  | [] => none
  | c :: rest =>
    if c = '_' then
      match rest with
      | c2 :: rest2 =>
        if c2 = tag then
          let ds := rest2.takeWhile (fun d => d.isDigit)
          if ds.isEmpty then findTagDigits tag rest
          else if (rest2.drop ds.length).head? = some '_' then some ds
          else findTagDigits tag rest
        else findTagDigits tag rest
      | [] => none
    else findTagDigits tag rest

/-- Characters strictly before the first underscore, if one occurs. -/
def beforeUnderscore : List Char → Option (List Char)
  | [] => none
  | '_' :: _ => some []
  | c :: rest => (beforeUnderscore rest).map (fun l => c :: l)

/-- Group 1 of re.search of a lazy dot-plus followed by an underscore:
the shortest nonempty prefix that is followed by an underscore. -/
def expNameOf : List Char → Option (List Char)
  | [] => none
  | c :: rest => (beforeUnderscore rest).map (fun l => c :: l)

/-- Experiment name of a fragment filename: src/run_combiner.py line 162. -/
def expName (f : String) : Option String := (expNameOf f.data).map String.mk

/-- Sample key of a fragment filename, S followed by the digits, as group 1
of the grouper's pattern: src/run_combiner.py line 125. -/
def sampleKey (f : String) : Option String :=
  (findTagDigits 'S' f.data).map (fun ds => String.mk ('S' :: ds))

/-- Numeric sample position of a fragment filename, as int applied to group 1
of the executor's pattern: src/run_combiner.py lines 163 and 165. -/
def sampleNum (f : String) : Option Nat :=
  (findTagDigits 'S' f.data).map digitsToNat

/-- Read direction key of a fragment filename, R followed by the digits:
src/run_combiner.py line 164. -/
def readKey (f : String) : Option String :=
  (findTagDigits 'R' f.data).map (fun ds => String.mk ('R' :: ds))

/-- Boolean presence of the literal segment underscore-R1-underscore, the
grouper's read-direction test: src/run_combiner.py line 132. -/
def hasR1 (f : String) : Bool := hasSub "_R1_".data f.data

/-- Positional element lookup in a list of strings. -/
def pyNth : List String → Nat → Option String
  | [], _ => none
  | a :: _, 0 => some a
  | _ :: l, n + 1 => pyNth l n

/-- Python list indexing for a list of strings with an Int index: negative
indices count from the end, out-of-range indexing is IndexError (none). -/
def pyIndex (l : List String) (i : Int) : Option String :=
  let j : Int := if i < 0 then (l.length : Int) + i else i
  if 0 ≤ j ∧ j < (l.length : Int) then pyNth l j.toNat else none

/-- Uncaught Python exceptions of the script: AttributeError from calling
group on a failed re.search, IndexError from list indexing, and NameError
from reading ss_info before any assignment.  None of these appear in the
except clauses of main (src/run_combiner.py lines 368 to 382), so each
aborts the whole pass. -/
inductive Crash
  | attrError
  | indexError
  | nameError
deriving DecidableEq

/-- The files_to_be_merged helper (src/run_combiner.py lines 106 to 110):
glob1 of the directory listing with the pattern star-dot-gz, which keeps
names ending in .gz and hides names starting with a dot. -/
def files_to_be_merged (entries : List String) : List String :=
  entries.filter (fun f => strEndsWith f ".gz" && !strStartsWith f ".")

/-- The check_timestamps helper (src/run_combiner.py lines 97 to 104): count
the candidate fragment files whose modification time is within 7200 seconds
of the current time.  The directory is given by its entry listing and a
modification-time map. -/
def check_timestamps (entries : List String) (mtime : String → Int) (time_ : Int) : Nat :=
  (files_to_be_merged entries).foldl
    (fun fails_ file_ => if time_ - mtime file_ < 7200 then fails_ + 1 else fails_) 0

/-- The get_completed helper (src/run_combiner.py lines 70 to 77): the store
file is read line by line and each line is stripped. -/
def get_completed (storeLines : List String) : List String := storeLines.map stripStr

/-- The update_completed helper (src/run_combiner.py lines 80 to 85): append
one line holding the completed directory to the store file. -/
def update_completed (store : List String) (completed_dir : String) : List String :=
  store ++ [completed_dir]

/-- One step of the grouper's accumulation dictionary
(samples.setdefault(key, []).append(one_file) at src/run_combiner.py
line 126), as an insertion-ordered association list. -/
def addToGroups (groups : List (String × List String)) (k : String) (f : String) :
    List (String × List String) :=
  match groups with
  | [] => [(k, [f])]
  | (k0, fs) :: rest =>
    if k0 = k then (k0, fs ++ [f]) :: rest else (k0, fs) :: addToGroups rest k f

/-- The grouper's first loop (src/run_combiner.py lines 124 to 126): fold the
file list into keyed groups; a file whose name has no sample key raises
AttributeError (none). -/
def buildAux (acc : List (String × List String)) : List String → Option (List (String × List String))
  | [] => some acc
  | f :: rest =>
    match sampleKey f with
    | none => none
    | some k => buildAux (addToGroups acc k f) rest

/-- The grouper's second loop (src/run_combiner.py lines 128 to 137): for each
keyed group, in insertion order, split it into the files containing the R1
segment and the rest, giving the read1 and read2 lists of unit file lists. -/
def group_pairs (files : List String) :
    Option (List (List String) × List (List String)) :=
  (buildAux [] files).map (fun samples =>
    (samples.map (fun kv => kv.2.filter (fun v => hasR1 v)),
     samples.map (fun kv => kv.2.filter (fun v => !hasR1 v))))

/-- The group_samples function (src/run_combiner.py lines 113 to 139): the
read1 and read2 lists wrapped in a one-entry dictionary keyed by the run
directory. -/
def group_samples (currentDir : String) (files : List String) :
    Option (List (String × (List (List String) × List (List String)))) :=
  (group_pairs files).map (fun p => [(currentDir, p)])

/-- Key-consistency predicate for the grouper's accumulation dictionary:
every file stored under a key has that key as its parsed sample key. -/
def groupsKeyed (gs : List (String × List String)) : Prop :=
  ∀ p ∈ gs, ∀ x ∈ p.2, sampleKey x = some p.1

/-- The value bound by the script to an email variable: a plain string, a
re match object (the sample-sheet parser assigns the raw result of re.search
to the email variable at src/run_combiner.py line 234), or Python None. -/
inductive PyEmail
  | str (s : String)
  | matchObj (line : String)
  | pyNone
deriving DecidableEq

/-- The character-class pattern written with square brackets around Data at
src/run_combiner.py line 236 matches any line containing a D, an a or a t. -/
def containsDat (line : String) : Bool :=
  line.data.any (fun c => c == 'D' || c == 'a' || c == 't')

/-- Whether re.search of caret-Investigator Name-comma-dot-plus matches the
line: it must start with the literal text and have at least one more
character. -/
def investigatorMatch (line : String) : Bool :=
  strStartsWith line "Investigator Name," &&
    decide ("Investigator Name,".data.length < line.data.length)

/-- One line of the sample-sheet loop (src/run_combiner.py lines 232 to 241).
State: collected sample labels, current email value, found_data flag.  A data
line with fewer than three comma-separated fields raises IndexError. -/
def sheetStep (use_ss_email : Bool) (acc : List String × PyEmail × Bool) (line : String) :
    Except Crash (List String × PyEmail × Bool) :=
  let samples := acc.1
  let email0 := acc.2.1
  let found0 := acc.2.2
  let email1 := if use_ss_email then
      (if investigatorMatch line then PyEmail.matchObj line else PyEmail.pyNone)
    else email0
  let found1 := if !found0 then (if containsDat line then true else false) else found0
  if found1 && strStartsWith line "1" then
    match pyNth (pySplit line) 1, pyNth (pySplit line) 2 with
    | some p1, some p2 => .ok (samples ++ [p1 ++ "_" ++ p2], email1, found1)
    | _, _ => .error .indexError
  else .ok (samples, email1, found1)

/-- The parse_sample_sheet function (src/run_combiner.py lines 219 to 247).
The sheet is given as its lines, or none when opening it raises IOError, in
which case the function logs the failure and returns no sample labels and
the admin email. -/
def parse_sample_sheet (sheet : Option (List String)) (admin_email : String)
    (use_ss_email : Bool) : Except Crash (List String × PyEmail) :=
  match sheet with
  | none => .ok ([], .str admin_email)
  | some lines =>
    (lines.foldlM (sheetStep use_ss_email) ([], .str admin_email, false)).map
      (fun acc => (acc.1, acc.2.1))

/-- Mails sent by the script, tagged by the transition that sends them. -/
inductive MailTag
  | unwritable (path : String)
  | incomplete (path : String)
  | remnantFastq (run name : String)
  | remnantGz (run name : String)
  | finished (path : String) (recipient : PyEmail)
deriving DecidableEq

/-- Outcome of one merge_files call that raises: caught covers the exception
types listed in main's except clauses, uncaught the ones that are not. -/
inductive MergeErr
  | uncaught (c : Crash)
  | caught
deriving DecidableEq

/-- Observable effects of one merge_files call that returns. -/
structure MergeEffects where
  mail : Option MailTag
  removedFile : Option String
  produced : Option (String × List Nat)
  deletedSources : List String
deriving DecidableEq

/-- The merge_files function (src/run_combiner.py lines 150 to 212) as a
function of the data it consults: the unit's file list, the sample-sheet
label list, which outputs already exist in the output folder, whether the
external decompress or compress step fails with a caught exception, and the
decompressed byte content of each fragment.

The output name is computed at line 165 in evaluation order: experiment name
group, sample-number group, label lookup, read-direction group; a failed
group call is AttributeError and an out-of-range lookup is IndexError.  If
the uncompressed output exists the script warns, mails, removes it and
returns; likewise for the compressed output; only otherwise does it run the
decompress-append loop (producing the concatenation of the fragments'
contents in list order), compress the result, and delete the source
fragments when keeping them is not requested. -/
def merge_files (currentDir : String) (samples : List String) (keep_samples : Bool)
    (ss_info : List String) (fastqE gzE : String → Bool)
    (extFail : List String → Bool) (frag : String → List Nat) :
    Except MergeErr MergeEffects :=
  match samples with
  | [] => .error (.uncaught .indexError)
  | s0 :: _ =>
    match expName s0 with
    | none => .error (.uncaught .attrError)
    | some exp_name =>
      match sampleNum s0 with
      | none => .error (.uncaught .attrError)
      | some n =>
        match pyIndex ss_info ((n : Int) - 1) with
        | none => .error (.uncaught .indexError)
        | some label =>
          match readKey s0 with
          | none => .error (.uncaught .attrError)
          | some exp_read =>
            let merged_name := exp_name ++ "_" ++ label ++ "_" ++ exp_read ++ ".fastq"
            if fastqE merged_name then
              .ok { mail := some (.remnantFastq currentDir merged_name),
                    removedFile := some merged_name,
                    produced := none, deletedSources := [] }
            else if gzE (merged_name ++ ".gz") then
              .ok { mail := some (.remnantGz currentDir (merged_name ++ ".gz")),
                    removedFile := some (merged_name ++ ".gz"),
                    produced := none, deletedSources := [] }
            else if extFail samples then
              .error .caught
            else
              .ok { mail := none, removedFile := none,
                    produced := some (merged_name ++ ".gz", (samples.map frag).flatten),
                    deletedSources := if keep_samples then [] else samples }

/-- Configuration values the pass consults, already validated. -/
structure Config where
  admin : String
  use_ss_email : Bool
  keep_original : Bool
  use_md5 : Bool

/-- One run directory as the pass observes it: its path, writability, the
exit status of the external md5 check, the modification-time map and entry
listing of its input folder, its sample-sheet lines (none when unreadable),
which output files already exist, and which merge units fail externally. -/
structure RunSpec where
  path : String
  writable : Bool
  md5status : Int
  mtime : String → Int
  entries : List String
  sheet : Option (List String)
  fastqExists : String → Bool
  gzExists : String → Bool
  extFail : List String → Bool

/-- Observable state accumulated by one pass. -/
structure PassSt where
  store : List String
  mails : List MailTag
  merges : List (String × String × List Nat)
  removed : List (String × String)
  deleted : List String
deriving DecidableEq

/-- Record one merge_files call's effects against the pass state. -/
def applyEff (runPath : String) (st : PassSt) (e : MergeEffects) : PassSt :=
  { st with
    mails := st.mails ++ e.mail.toList,
    removed := st.removed ++ (e.removedFile.map (fun f => (runPath, f))).toList,
    merges := st.merges ++ (e.produced.map (fun pr => (runPath, pr.1, pr.2))).toList,
    deleted := st.deleted ++ e.deletedSources }

/-- Transfer verification of one run as main computes it (src/run_combiner.py
lines 321 to 336): md5status and timestamp start at 1, exactly one of them is
recomputed according to use_md5, and the run proceeds when either is zero. -/
def runVerified (cfg : Config) (time_ : Int) (r : RunSpec) : Bool :=
  let md5status : Int := if cfg.use_md5 then r.md5status else 1
  let timestamp : Nat := if cfg.use_md5 then 1 else check_timestamps r.entries r.mtime time_
  md5status == 0 || timestamp == 0

/-- Result of the statements inside main's try block for one run: normal
completion, a caught exception (handled by the except clauses), or an
uncaught exception that aborts the pass. -/
inductive StepRes
  | ok (st : PassSt)
  | caught (st : PassSt)
  | crash (c : Crash)

/-- The inner unit loop (for item in value, src/run_combiner.py lines 351 to
357): merge each unit in order; a caught failure aborts the remaining items
of the run's try block, an uncaught one aborts the pass. -/
def mergeLoopItems (cfg : Config) (frag : String → List Nat) (r : RunSpec)
    (ss_samples : List String) (st : PassSt) : List (List String) → StepRes
  | [] => .ok st
  | item :: rest =>
    match merge_files r.path item cfg.keep_original ss_samples
        r.fastqExists r.gzExists r.extFail frag with
    | .error (.uncaught c) => .crash c
    | .error .caught => .caught st
    | .ok e => mergeLoopItems cfg frag r ss_samples (applyEff r.path st e) rest

/-- The outer loop over the grouping dictionary's value pair (for value in
sample_groups of key, src/run_combiner.py lines 349 to 359): after each of
the read1 and read2 lists finishes its item loop, update_completed appends
the run's path to the store. -/
def mergeLoopValues (cfg : Config) (frag : String → List Nat) (r : RunSpec)
    (ss_samples : List String) (st : PassSt) : List (List (List String)) → StepRes
  | [] => .ok st
  | value :: rest =>
    match mergeLoopItems cfg frag r ss_samples st value with
    | .ok st2 =>
        mergeLoopValues cfg frag r ss_samples
          { st2 with store := update_completed st2.store r.path } rest
    | res => res

/-- One iteration of main's loop over writable directories
(src/run_combiner.py lines 318 to 387).  The accumulator carries the pass
state and the current value of the ss_info variable, which survives across
iterations and is unbound before its first assignment.  Inside the try block:
if verification succeeds, the sample sheet is parsed (assigning ss_info),
the input files are grouped (the source wraps the pair in a one-entry
dictionary keyed by the run path, whose single value drives the loop), and
the unit loops run; otherwise a too-young or mismatch mail is sent.  A caught
exception only ends the try block.  After the try block the script always
sends the finished-merging mail to the second component of ss_info, which is
NameError if ss_info was never assigned. -/
def processDir (cfg : Config) (frag : String → List Nat) (time_ : Int)
    (acc : PassSt × Option (List String × PyEmail)) (r : RunSpec) :
    Except Crash (PassSt × Option (List String × PyEmail)) :=
  let st := acc.1
  let ssVar := acc.2
  let tryRes : StepRes × Option (List String × PyEmail) :=
    if runVerified cfg time_ r then
      match parse_sample_sheet r.sheet cfg.admin cfg.use_ss_email with
      | .error c => (.crash c, ssVar)
      | .ok ss_info =>
        match group_pairs (files_to_be_merged r.entries) with
        | none => (.crash .attrError, some ss_info)
        | some pr =>
          (mergeLoopValues cfg frag r ss_info.1 st [pr.1, pr.2], some ss_info)
    else (.ok { st with mails := st.mails ++ [.incomplete r.path] }, ssVar)
  match tryRes with
  | (.crash c, _) => .error c
  | (.ok st2, ssv) =>
    match ssv with
    | none => .error .nameError
    | some si => .ok ({ st2 with mails := st2.mails ++ [.finished r.path si.2] }, some si)
  | (.caught st2, ssv) =>
    match ssv with
    | none => .error .nameError
    | some si => .ok ({ st2 with mails := st2.mails ++ [.finished r.path si.2] }, some si)

/-- One whole pass of main over the inbox (src/run_combiner.py lines 294 to
390): read the completed store, keep only directories whose path is not in
it, split by writability, mail about each unwritable directory, then fold
the per-directory processing over the writable ones with ss_info initially
unbound. -/
def mainPass (cfg : Config) (frag : String → List Nat) (time_ : Int)
    (storeLines : List String) (dirs : List RunSpec) :
    Except Crash (PassSt × Option (List String × PyEmail)) :=
  let completed := get_completed storeLines
  let candidates := dirs.filter (fun d => !(decide (d.path ∈ completed)))
  let writable := candidates.filter (fun d => d.writable)
  let unwritable := candidates.filter (fun d => !d.writable)
  let st0 : PassSt := { store := storeLines,
                        mails := unwritable.map (fun d => MailTag.unwritable d.path),
                        merges := [], removed := [], deleted := [] }
  writable.foldlM (processDir cfg frag time_) (st0, none)

/-! Helper lemmas. -/

/-- Indexing into an empty list always fails, whatever the index. -/
theorem pyIndex_nil (i : Int) : pyIndex [] i = none := by
  simp only [pyIndex, List.length_nil]
  split <;> simp [pyNth]

/-- Shifting the accumulator of the timestamp fold. -/
theorem foldl_shift (mtime : String → Int) (time_ : Int) :
    ∀ (l : List String) (a b : Nat),
      l.foldl (fun fails_ file_ =>
          if time_ - mtime file_ < 7200 then fails_ + 1 else fails_) (a + b) =
        l.foldl (fun fails_ file_ =>
          if time_ - mtime file_ < 7200 then fails_ + 1 else fails_) a + b := by
  intro l
  induction l with
  | nil => intro a b; rfl
  | cons f rest ih =>
    intro a b
    by_cases h : time_ - mtime f < 7200
    · simp only [List.foldl_cons, h, if_pos]
      rw [show a + b + 1 = (a + 1) + b by omega, ih]
    · simp only [List.foldl_cons, h, if_neg, ite_false]
      exact ih a b

/-- The timestamp counter is the number of candidate files within the
freshness threshold. -/
theorem check_timestamps_eq_count (entries : List String) (mtime : String → Int)
    (time_ : Int) :
    check_timestamps entries mtime time_ =
      ((files_to_be_merged entries).filter
        (fun f => decide (time_ - mtime f < 7200))).length := by
  unfold check_timestamps
  generalize files_to_be_merged entries = l
  induction l with
  | nil => rfl
  | cons f rest ih =>
    by_cases h : time_ - mtime f < 7200
    · have h1 : (fun fails_ file_ =>
          if time_ - mtime file_ < 7200 then fails_ + 1 else fails_) 0 f = 0 + 1 := by
        simp [h]
      simp only [List.foldl_cons, h1, foldl_shift, ih, List.filter_cons, h,
        decide_True, if_pos, List.length_cons]
    · simp [List.foldl_cons, List.filter_cons, h, ih]

/-- C8: with the file-age strategy, the verifier reports Complete exactly
when zero candidate fragment files have a modification time within 7200
seconds (2 hours) of the current time; a single file modified more recently
than the threshold makes the whole run Incomplete.  The third conjunct ties
the counter to main's verification flag when md5 checking is off. -/
theorem age_strategy_complete_iff_no_young_files
    (entries : List String) (mtime : String → Int) (time_ : Int)
    (cfg : Config) (r : RunSpec) :
    (check_timestamps entries mtime time_ = 0 ↔
      ∀ g ∈ files_to_be_merged entries, 7200 ≤ time_ - mtime g) ∧
    (∀ f ∈ files_to_be_merged entries, time_ - mtime f < 7200 →
      check_timestamps entries mtime time_ ≠ 0) ∧
    (cfg.use_md5 = false →
      (runVerified cfg time_ r = true ↔
        check_timestamps r.entries r.mtime time_ = 0)) := by
  refine ⟨?_, ?_, ?_⟩
  · rw [check_timestamps_eq_count, List.length_eq_zero, List.filter_eq_nil_iff]
    constructor
    · intro h g hg
      have := h g hg
      simp only [decide_eq_true_eq] at this
      omega
    · intro h g hg
      have := h g hg
      simp only [decide_eq_true_eq]
      omega
  · intro f hf hy h0
    rw [check_timestamps_eq_count, List.length_eq_zero, List.filter_eq_nil_iff] at h0
    have := h0 f hf
    simp only [decide_eq_true_eq] at this
    omega
  · intro h5
    simp [runVerified, h5]

/-- Witness for C8 at concrete inputs: one file modified 600 seconds ago is
enough to report Incomplete, and a directory whose only file is old reports
Complete. -/
theorem age_strategy_complete_iff_no_young_files_witness :
    check_timestamps ["new.gz"] (fun _ => 0) 600 ≠ 0 ∧
    check_timestamps ["old.gz"] (fun _ => 0) 600000 = 0 := by
  constructor
  · exact (age_strategy_complete_iff_no_young_files ["new.gz"] (fun _ => 0) 600
      ⟨"", false, false, false⟩
      ⟨"", false, 0, fun _ => 0, [], none, fun _ => false, fun _ => false,
        fun _ => false⟩).2.1 "new.gz" (by decide) (by decide)
  · exact (age_strategy_complete_iff_no_young_files ["old.gz"] (fun _ => 0) 600000
      ⟨"", false, false, false⟩
      ⟨"", false, 0, fun _ => 0, [], none, fun _ => false, fun _ => false,
        fun _ => false⟩).1.mpr (by decide)

/-- C1 (code bug): when the uncompressed output of a unit already exists, the
executor warns, mails and removes the remnant but returns without merging:
no fresh output is produced for that unit in the same pass.  The same holds
for a pre-existing compressed output.  The third conjunct shows the merge
that the remnant branches skip: with no remnant present, the executor
produces the compressed output whose decompressed content is the
concatenation of the fragments' contents in group order. -/
theorem merge_files_remnant_skips_merge :
    merge_files "run1" ["A_S1_L001_R1_001.gz"] true ["S1"]
        (fun n => n == "A_S1_R1.fastq") (fun _ => false) (fun _ => false)
        (fun _ => [0]) =
      .ok { mail := some (.remnantFastq "run1" "A_S1_R1.fastq"),
            removedFile := some "A_S1_R1.fastq",
            produced := none, deletedSources := [] } ∧
    merge_files "run1" ["A_S1_L001_R1_001.gz"] true ["S1"]
        (fun _ => false) (fun n => n == "A_S1_R1.fastq.gz") (fun _ => false)
        (fun _ => [0]) =
      .ok { mail := some (.remnantGz "run1" "A_S1_R1.fastq.gz"),
            removedFile := some "A_S1_R1.fastq.gz",
            produced := none, deletedSources := [] } ∧
    merge_files "run1" ["A_S1_L001_R1_001.gz", "A_S1_L002_R1_001.gz"] true ["S1"]
        (fun _ => false) (fun _ => false) (fun _ => false)
        (fun f => if f == "A_S1_L001_R1_001.gz" then [1] else [2]) =
      .ok { mail := none, removedFile := none,
            produced := some ("A_S1_R1.fastq.gz", [1, 2]),
            deletedSources := [] } :=
  ⟨rfl, rfl, rfl⟩

/-- Appending a file to the accumulation dictionary adds exactly that file to
the flattened contents. -/
theorem addToGroups_flatten_perm (acc : List (String × List String)) (k : String)
    (f : String) :
    (((addToGroups acc k f).map Prod.snd).flatten).Perm
      ((acc.map Prod.snd).flatten ++ [f]) := by
  induction acc with
  | nil => simp [addToGroups]
  | cons p rest ih =>
    obtain ⟨k0, fs⟩ := p
    by_cases hk : k0 = k
    · simp only [addToGroups, if_pos hk, List.map_cons, List.flatten_cons]
      rw [List.append_assoc, List.append_assoc]
      exact List.Perm.append_left fs List.perm_append_comm
    · simp only [addToGroups, if_neg hk, List.map_cons, List.flatten_cons]
      rw [List.append_assoc]
      exact List.Perm.append_left fs ih

/-- The flattened contents of the grouper's accumulation dictionary are a
permutation of the processed files (plus whatever the accumulator held). -/
theorem buildAux_flatten_perm (files : List String) :
    ∀ acc gs, buildAux acc files = some gs →
      ((gs.map Prod.snd).flatten).Perm ((acc.map Prod.snd).flatten ++ files) := by
  induction files with
  | nil =>
    intro acc gs h
    simp only [buildAux, Option.some.injEq] at h
    subst h
    simp
  | cons f rest ih =>
    intro acc gs h
    cases hk : sampleKey f with
    | none => rw [buildAux, hk] at h; exact absurd h (by simp)
    | some k =>
      rw [buildAux, hk] at h
      refine (ih (addToGroups acc k f) gs h).trans ?_
      refine ((addToGroups_flatten_perm acc k f).append_right rest).trans ?_
      rw [List.append_assoc, List.singleton_append]

/-- The grouper's first loop succeeds whenever every file has a sample key. -/
theorem buildAux_isSome (files : List String) :
    ∀ acc, (∀ f ∈ files, (sampleKey f).isSome) →
      ∃ gs, buildAux acc files = some gs := by
  induction files with
  | nil => intro acc _; exact ⟨acc, rfl⟩
  | cons f rest ih =>
    intro acc h
    have hf : (sampleKey f).isSome := h f (by simp)
    cases hk : sampleKey f with
    | none => rw [hk] at hf; exact absurd hf (by simp)
    | some k =>
      have := ih (addToGroups acc k f) (fun g hg => h g (by simp [hg]))
      simpa [buildAux, hk] using this

/-- Adding a file under its own sample key preserves key consistency of the
accumulation dictionary. -/
theorem addToGroups_keyed (k : String) (f : String) (hf : sampleKey f = some k) :
    ∀ acc, groupsKeyed acc → groupsKeyed (addToGroups acc k f) := by
  intro acc
  induction acc with
  | nil =>
    intro _ p hp x hx
    simp only [addToGroups, List.mem_singleton] at hp
    subst hp
    simp only [List.mem_singleton] at hx
    subst hx
    exact hf
  | cons q rest ih =>
    obtain ⟨k0, fs⟩ := q
    intro hacc p hp x hx
    by_cases hk : k0 = k
    · simp only [addToGroups, if_pos hk] at hp
      rcases List.mem_cons.mp hp with h1 | h2
      · subst h1
        rcases List.mem_append.mp hx with hx1 | hx2
        · exact hacc (k0, fs) (by simp) x hx1
        · simp only [List.mem_singleton] at hx2
          subst hx2
          rw [hf, hk]
      · exact hacc p (by simp [h2]) x hx
    · simp only [addToGroups, if_neg hk] at hp
      rcases List.mem_cons.mp hp with h1 | h2
      · subst h1
        exact hacc (k0, fs) (by simp) x hx
      · exact ih (fun p2 hp2 x2 hx2 => hacc p2 (by simp [hp2]) x2 hx2) p h2 x hx

/-- The grouper's accumulation dictionary is key-consistent. -/
theorem buildAux_keyed (files : List String) :
    ∀ acc gs, buildAux acc files = some gs → groupsKeyed acc → groupsKeyed gs := by
  induction files with
  | nil =>
    intro acc gs h hacc
    simp only [buildAux, Option.some.injEq] at h
    subst h
    exact hacc
  | cons f rest ih =>
    intro acc gs h hacc
    cases hk : sampleKey f with
    | none => rw [buildAux, hk] at h; exact absurd h (by simp)
    | some k =>
      rw [buildAux, hk] at h
      exact ih _ gs h (addToGroups_keyed k f hk acc hacc)

/-- A file with no recognizable sample key makes the grouper's first loop
raise (AttributeError), whatever else the list holds. -/
theorem buildAux_none (f : String) (hkey : sampleKey f = none) :
    ∀ files, f ∈ files → ∀ acc, buildAux acc files = none := by
  intro files
  induction files with
  | nil => intro hmem; cases hmem
  | cons g rest ih =>
    intro hmem acc
    cases hk : sampleKey g with
    | none => simp [buildAux, hk]
    | some k =>
      have hfg : f ≠ g := by
        intro e
        rw [e, hk] at hkey
        exact Option.noConfusion hkey
      have h2 : f ∈ rest := by
        rcases List.mem_cons.mp hmem with h | h
        · exact absurd h hfg
        · exact h
      simpa [buildAux, hk] using ih h2 (addToGroups acc k g)

/-- Splitting every group by a predicate and flattening both halves is a
permutation of flattening the groups. -/
theorem flattenFilterPerm (p : String → Bool) (L : List (List String)) :
    ((L.map (fun l => l.filter p)).flatten ++
      (L.map (fun l => l.filter (fun x => !p x))).flatten).Perm L.flatten := by
  induction L with
  | nil => simp
  | cons g L ih =>
    simp only [List.map_cons, List.flatten_cons, List.append_assoc]
    refine (List.Perm.append_left (g.filter p)
      (List.perm_append_comm_assoc _ _ _)).trans ?_
    rw [← List.append_assoc]
    exact (List.filter_append_perm p g).append ih

/-- C7: on a file list where every name has a sample key, grouping succeeds
and partitions the files into one unit per sample key and read direction:
the units' contents are a permutation of the input, every file in a read1
unit contains the R1 segment and every file in a read2 unit does not, and
all files of a unit share one sample key.  On the spec's concrete input the
grouping is exactly one (S1, R1) unit with two files and one (S1, R2) unit
with one file. -/
theorem grouping_partitions_by_key_and_read (files : List String)
    (h : ∀ f ∈ files, (sampleKey f).isSome) :
    ∃ read1 read2,
      group_pairs files = some (read1, read2) ∧
      (read1.flatten ++ read2.flatten).Perm files ∧
      (∀ g ∈ read1, ∀ x ∈ g, hasR1 x = true) ∧
      (∀ g ∈ read2, ∀ x ∈ g, hasR1 x = false) ∧
      (∀ g ∈ read1, ∀ x ∈ g, ∀ y ∈ g, sampleKey x = sampleKey y) ∧
      (∀ g ∈ read2, ∀ x ∈ g, ∀ y ∈ g, sampleKey x = sampleKey y) ∧
      group_pairs ["A_S1_L001_R1_001.gz", "A_S1_L002_R1_001.gz", "A_S1_L001_R2_001.gz"] =
        some ([["A_S1_L001_R1_001.gz", "A_S1_L002_R1_001.gz"]],
              [["A_S1_L001_R2_001.gz"]]) := by
  obtain ⟨gs, hgs⟩ := buildAux_isSome files [] h
  have hkeyed : groupsKeyed gs :=
    buildAux_keyed files [] gs hgs (fun p hp => by cases hp)
  refine ⟨gs.map (fun kv => kv.2.filter (fun v => hasR1 v)),
          gs.map (fun kv => kv.2.filter (fun v => !hasR1 v)),
          by simp [group_pairs, hgs], ?_, ?_, ?_, ?_, ?_, rfl⟩
  · have h1 := flattenFilterPerm (fun v => hasR1 v) (gs.map Prod.snd)
    rw [List.map_map, List.map_map] at h1
    have h2 := buildAux_flatten_perm files [] gs hgs
    simp only [List.map_nil, List.flatten_nil, List.nil_append] at h2
    exact h1.trans h2
  · intro g hg x hx
    obtain ⟨kv, _, rfl⟩ := List.mem_map.mp hg
    exact (List.mem_filter.mp hx).2
  · intro g hg x hx
    obtain ⟨kv, _, rfl⟩ := List.mem_map.mp hg
    have hb := (List.mem_filter.mp hx).2
    simpa using hb
  · intro g hg x hx y hy
    obtain ⟨kv, hkv, rfl⟩ := List.mem_map.mp hg
    rw [hkeyed kv hkv x (List.mem_of_mem_filter hx),
        hkeyed kv hkv y (List.mem_of_mem_filter hy)]
  · intro g hg x hx y hy
    obtain ⟨kv, hkv, rfl⟩ := List.mem_map.mp hg
    rw [hkeyed kv hkv x (List.mem_of_mem_filter hx),
        hkeyed kv hkv y (List.mem_of_mem_filter hy)]

/-- Witness for C7 at the spec's concrete input. -/
theorem grouping_partitions_by_key_and_read_witness :
    ∃ read1 read2,
      group_pairs ["A_S1_L001_R1_001.gz", "A_S1_L002_R1_001.gz", "A_S1_L001_R2_001.gz"] =
        some (read1, read2) ∧
      (read1.flatten ++ read2.flatten).Perm
        ["A_S1_L001_R1_001.gz", "A_S1_L002_R1_001.gz", "A_S1_L001_R2_001.gz"] ∧
      (∀ g ∈ read1, ∀ x ∈ g, hasR1 x = true) ∧
      (∀ g ∈ read2, ∀ x ∈ g, hasR1 x = false) ∧
      (∀ g ∈ read1, ∀ x ∈ g, ∀ y ∈ g, sampleKey x = sampleKey y) ∧
      (∀ g ∈ read2, ∀ x ∈ g, ∀ y ∈ g, sampleKey x = sampleKey y) ∧
      group_pairs ["A_S1_L001_R1_001.gz", "A_S1_L002_R1_001.gz", "A_S1_L001_R2_001.gz"] =
        some ([["A_S1_L001_R1_001.gz", "A_S1_L002_R1_001.gz"]],
              [["A_S1_L001_R2_001.gz"]]) :=
  grouping_partitions_by_key_and_read
    ["A_S1_L001_R1_001.gz", "A_S1_L002_R1_001.gz", "A_S1_L001_R2_001.gz"] (by decide)

/-- The inner unit loop never touches the completed store. -/
theorem mergeLoopItems_store (cfg : Config) (frag : String → List Nat) (r : RunSpec)
    (ss : List String) :
    ∀ (value : List (List String)) (st st2 : PassSt),
      mergeLoopItems cfg frag r ss st value = .ok st2 → st2.store = st.store := by
  intro value
  induction value with
  | nil =>
    intro st st2 h
    simp only [mergeLoopItems] at h
    injection h with h
    rw [← h]
  | cons item rest ih =>
    intro st st2 h
    cases hm : merge_files r.path item cfg.keep_original ss
        r.fastqExists r.gzExists r.extFail frag with
    | error e =>
      cases e with
      | uncaught c => simp [mergeLoopItems, hm] at h
      | caught => simp [mergeLoopItems, hm] at h
    | ok e =>
      rw [mergeLoopItems, hm] at h
      exact ih (applyEff r.path st e) st2 h

/-- C10: whenever the unit loop over the read1 and read2 lists finishes
without an exception, the completed store has been appended to exactly twice
with the run's path, once after each list; membership in the store is the
same as after a single append, so completion filtering is unaffected by the
duplicate line. -/
theorem completed_appended_twice (cfg : Config) (frag : String → List Nat)
    (r : RunSpec) (ss : List String) (st st2 : PassSt)
    (read1 read2 : List (List String))
    (h : mergeLoopValues cfg frag r ss st [read1, read2] = .ok st2) :
    st2.store = update_completed (update_completed st.store r.path) r.path ∧
    (∀ q, q ∈ st2.store ↔ q ∈ update_completed st.store r.path) := by
  have hstore : st2.store = update_completed (update_completed st.store r.path) r.path := by
    cases h1 : mergeLoopItems cfg frag r ss st read1 with
    | ok stA =>
      rw [mergeLoopValues.eq_def] at h
      simp only [h1] at h
      cases h2 : mergeLoopItems cfg frag r ss
          { stA with store := update_completed stA.store r.path } read2 with
      | ok stB =>
        rw [mergeLoopValues.eq_def] at h
        simp only [h2] at h
        simp only [mergeLoopValues] at h
        injection h with h
        have e1 := mergeLoopItems_store cfg frag r ss read1 st stA h1
        have e2 := mergeLoopItems_store cfg frag r ss read2 _ stB h2
        rw [← h]
        simp only [e2, e1]
      | caught stB => rw [mergeLoopValues.eq_def] at h; simp [h2] at h
      | crash c => rw [mergeLoopValues.eq_def] at h; simp [h2] at h
    | caught stA => rw [mergeLoopValues.eq_def] at h; simp [h1] at h
    | crash c => rw [mergeLoopValues.eq_def] at h; simp [h1] at h
  refine ⟨hstore, fun q => ?_⟩
  rw [hstore]
  simp only [update_completed, List.append_assoc, List.mem_append,
    List.mem_singleton, List.singleton_append, List.mem_cons]
  tauto

/-- Witness for C10: a run with one R1 unit and one R2 unit that both merge
leaves the store with the run's path appended twice, and membership is as
after one append. -/
theorem completed_appended_twice_witness :
    (["run1", "run1"] : List String) =
      update_completed (update_completed ([] : List String) "run1") "run1" ∧
    (∀ q, q ∈ (["run1", "run1"] : List String) ↔
      q ∈ update_completed ([] : List String) "run1") :=
  completed_appended_twice ⟨"adm", false, true, true⟩ (fun _ => [0])
    ⟨"run1", true, 0, fun _ => 0, [], none, fun _ => false, fun _ => false,
      fun _ => false⟩
    ["s"] ⟨[], [], [], [], []⟩
    ⟨["run1", "run1"], [],
      [("run1", "A_s_R1.fastq.gz", [0]), ("run1", "A_s_R2.fastq.gz", [0])], [], []⟩
    [["A_S1_R1_x.gz"]] [["A_S1_R2_x.gz"]] rfl

/-- C9: a writable, transfer-verified run directory with zero fragment files
produces the empty grouping, performs no merge work, raises no error, and
still has its path recorded in the completed store (twice, per C10). -/
theorem empty_run_completes_without_merges (cfg : Config) (frag : String → List Nat)
    (time_ : Int) (st : PassSt) (ssv : Option (List String × PyEmail))
    (r : RunSpec) (si : List String × PyEmail)
    (hver : runVerified cfg time_ r = true)
    (hfiles : files_to_be_merged r.entries = [])
    (hsheet : parse_sample_sheet r.sheet cfg.admin cfg.use_ss_email = .ok si) :
    group_samples r.path [] = some [(r.path, ([], []))] ∧
    processDir cfg frag time_ (st, ssv) r =
      .ok ({ st with
             store := update_completed (update_completed st.store r.path) r.path,
             mails := st.mails ++ [.finished r.path si.2] }, some si) := by
  refine ⟨rfl, ?_⟩
  simp only [processDir, hver, hsheet, hfiles, if_true]
  simp [group_pairs, buildAux, mergeLoopValues, mergeLoopItems, update_completed]

/-- Witness for C9 on a concrete empty run. -/
theorem empty_run_completes_without_merges_witness :
    group_samples "run1" [] = some [("run1", ([], []))] ∧
    processDir ⟨"adm", false, true, true⟩ (fun _ => []) 0
        (⟨[], [], [], [], []⟩, none)
        ⟨"run1", true, 0, fun _ => 0, [], none, fun _ => false, fun _ => false,
          fun _ => false⟩ =
      .ok (⟨["run1", "run1"], [.finished "run1" (.str "adm")], [], [], []⟩,
           some ([], .str "adm")) :=
  empty_run_completes_without_merges ⟨"adm", false, true, true⟩ (fun _ => []) 0
    ⟨[], [], [], [], []⟩ none
    ⟨"run1", true, 0, fun _ => 0, [], none, fun _ => false, fun _ => false,
      fun _ => false⟩
    ([], .str "adm") rfl rfl rfl

/-- C2 (counterexample): a single run with two sample keys whose first R1
unit fails with a caught exception.  The pass finishes, but the sibling
units are never merged (merges is empty) and the run's path is never
appended to the completed store (store is empty), contradicting the claim
that sibling units are still processed and the run is still recorded. -/
theorem unit_failure_aborts_run_counterexample :
    mainPass ⟨"adm", false, true, true⟩ (fun _ => [0]) 0 []
        [⟨"run1", true, 0, fun _ => 0,
          ["A_S1_R1_x.gz", "A_S1_R2_x.gz", "B_S2_R1_x.gz", "B_S2_R2_x.gz"],
          some ["1,s,a", "1,t,b"], fun _ => false, fun _ => false,
          fun u => u == ["A_S1_R1_x.gz"]⟩] =
      .ok (⟨[], [.finished "run1" (.str "adm")], [], [], []⟩,
           some (["s_a", "t_b"], .str "adm")) ∧
    "run1" ∉ get_completed [] :=
  ⟨rfl, by decide⟩

/-- C2 (amended): a unit's caught merge failure is isolated to its run, not
to the unit: the pass continues (the per-directory result is ok, and the
finished-merging mail is even still sent), but the remaining sibling units
of the run are skipped and the run's path is not recorded in the completed
store, leaving state and store exactly as before the run. -/
theorem unit_failure_isolated_to_run (cfg : Config) (frag : String → List Nat)
    (time_ : Int) (st : PassSt) (ssv : Option (List String × PyEmail))
    (r : RunSpec) (si : List String × PyEmail) (item : List String)
    (rest1 read2 : List (List String))
    (hver : runVerified cfg time_ r = true)
    (hsheet : parse_sample_sheet r.sheet cfg.admin cfg.use_ss_email = .ok si)
    (hgroup : group_pairs (files_to_be_merged r.entries) = some (item :: rest1, read2))
    (hfail : merge_files r.path item cfg.keep_original si.1
        r.fastqExists r.gzExists r.extFail frag = .error .caught) :
    processDir cfg frag time_ (st, ssv) r =
      .ok ({ st with mails := st.mails ++ [.finished r.path si.2] }, some si) := by
  simp only [processDir, hver, hsheet, hgroup, if_true]
  rw [mergeLoopValues.eq_def]
  simp [mergeLoopItems, hfail]

/-- Witness for the amended C2 on the counterexample's run. -/
theorem unit_failure_isolated_to_run_witness :
    processDir ⟨"adm", false, true, true⟩ (fun _ => [0]) 0
        (⟨[], [], [], [], []⟩, none)
        ⟨"run1", true, 0, fun _ => 0,
         ["A_S1_R1_x.gz", "A_S1_R2_x.gz", "B_S2_R1_x.gz", "B_S2_R2_x.gz"],
         some ["1,s,a", "1,t,b"], fun _ => false, fun _ => false,
         fun u => u == ["A_S1_R1_x.gz"]⟩ =
      .ok (⟨[], [.finished "run1" (.str "adm")], [], [], []⟩,
           some (["s_a", "t_b"], .str "adm")) :=
  unit_failure_isolated_to_run ⟨"adm", false, true, true⟩ (fun _ => [0]) 0
    ⟨[], [], [], [], []⟩ none
    ⟨"run1", true, 0, fun _ => 0,
     ["A_S1_R1_x.gz", "A_S1_R2_x.gz", "B_S2_R1_x.gz", "B_S2_R2_x.gz"],
     some ["1,s,a", "1,t,b"], fun _ => false, fun _ => false,
     fun u => u == ["A_S1_R1_x.gz"]⟩
    (["s_a", "t_b"], .str "adm")
    ["A_S1_R1_x.gz"] [["B_S2_R1_x.gz"]] [["A_S1_R2_x.gz"], ["B_S2_R2_x.gz"]]
    rfl rfl rfl rfl

/-- C3: when every visible run directory's path is already in the completed
store read at pass start, a second pass performs zero merges, sends zero
mails, and leaves the store unchanged: each run is filtered out before any
permission, verification or merge step.  The final conjunct shows that a
path recorded by update_completed is found again by get_completed, provided
stripping is the identity on it. -/
theorem second_pass_zero_merges (cfg : Config) (frag : String → List Nat)
    (time_ : Int) (storeLines : List String) (dirs : List RunSpec)
    (p : String) (store2 : List String)
    (h : ∀ d ∈ dirs, d.path ∈ get_completed storeLines)
    (hp : stripStr p = p) :
    mainPass cfg frag time_ storeLines dirs =
      .ok (⟨storeLines, [], [], [], []⟩, none) ∧
    p ∈ get_completed (update_completed store2 p) := by
  constructor
  · have hfil : dirs.filter
        (fun d => !(decide (d.path ∈ get_completed storeLines))) = [] := by
      rw [List.filter_eq_nil_iff]
      intro d hd
      simp [h d hd]
    simp only [mainPass, hfil, List.filter_nil, List.map_nil, List.foldlM_nil]
    rfl
  · simp [get_completed, update_completed, hp]

/-- Witness for C3 with one run already recorded. -/
theorem second_pass_zero_merges_witness :
    mainPass ⟨"adm", false, true, true⟩ (fun _ => []) 0 ["run1"]
        [⟨"run1", true, 0, fun _ => 0, [], none, fun _ => false, fun _ => false,
          fun _ => false⟩] =
      .ok (⟨["run1"], [], [], [], []⟩, none) ∧
    "run1" ∈ get_completed (update_completed [] "run1") :=
  second_pass_zero_merges ⟨"adm", false, true, true⟩ (fun _ => []) 0 ["run1"]
    [⟨"run1", true, 0, fun _ => 0, [], none, fun _ => false, fun _ => false,
      fun _ => false⟩]
    "run1" [] (by decide) (by decide)

/-- C4 (counterexample): a writable, verified run whose only file lacks the
sample-key segment makes the whole pass abort with the grouper's uncaught
AttributeError, contradicting the claim that the error is a per-unit
skip-and-log that does not crash the overall pass. -/
theorem malformed_crashes_pass_counterexample :
    mainPass ⟨"adm", false, true, true⟩ (fun _ => []) 0 []
        [⟨"run1", true, 0, fun _ => 0, ["Afile.gz"], none,
          fun _ => false, fun _ => false, fun _ => false⟩] =
      .error .attrError := rfl

/-- C4 (amended): a filename lacking the sample-key segment makes the grouper
raise an error rather than silently dropping the file, but the error is an
uncaught AttributeError, not a named MalformedFilename skipped and logged
per unit: the per-directory processing, and with it the whole pass, aborts. -/
theorem malformed_filename_uncaught (files : List String) (f : String)
    (cfg : Config) (frag : String → List Nat) (time_ : Int) (st : PassSt)
    (ssv : Option (List String × PyEmail)) (r : RunSpec)
    (si : List String × PyEmail) (currentDir : String)
    (hmem : f ∈ files) (hkey : sampleKey f = none)
    (hver : runVerified cfg time_ r = true)
    (hsheet : parse_sample_sheet r.sheet cfg.admin cfg.use_ss_email = .ok si)
    (hfiles : files_to_be_merged r.entries = files) :
    group_samples currentDir files = none ∧
    processDir cfg frag time_ (st, ssv) r = .error .attrError := by
  have hb : buildAux [] files = none := buildAux_none f hkey files hmem []
  have hgp : group_pairs files = none := by simp [group_pairs, hb]
  refine ⟨by simp [group_samples, hgp], ?_⟩
  simp [processDir, hver, hsheet, hfiles, hgp]

/-- Witness for the amended C4 on a concrete malformed file. -/
theorem malformed_filename_uncaught_witness :
    group_samples "run1" ["Afile.gz"] = none ∧
    processDir ⟨"adm", false, true, true⟩ (fun _ => []) 0
        (⟨[], [], [], [], []⟩, none)
        ⟨"run1", true, 0, fun _ => 0, ["Afile.gz"], none,
         fun _ => false, fun _ => false, fun _ => false⟩ = .error .attrError :=
  malformed_filename_uncaught ["Afile.gz"] "Afile.gz" ⟨"adm", false, true, true⟩
    (fun _ => []) 0 ⟨[], [], [], [], []⟩ none
    ⟨"run1", true, 0, fun _ => 0, ["Afile.gz"], none,
     fun _ => false, fun _ => false, fun _ => false⟩
    ([], .str "adm") "run1" (by decide) (by decide) rfl rfl rfl

/-- C5 (counterexample): with the sample sheet missing, parsing does fall
back to the admin email, but a run that also has a fragment file crashes
the whole pass with an uncaught IndexError, contradicting the claim that
the missing sheet is never fatal and that the sample label falls back to
the raw numeric key. -/
theorem missing_sheet_fatal_counterexample :
    parse_sample_sheet none "adm" false = .ok ([], .str "adm") ∧
    mainPass ⟨"adm", false, true, true⟩ (fun _ => []) 0 []
        [⟨"run1", true, 0, fun _ => 0, ["A_S1_R1_x.gz"], none,
          fun _ => false, fun _ => false, fun _ => false⟩] =
      .error .indexError :=
  ⟨rfl, rfl⟩

/-- C5 (amended): a missing or unreadable sample sheet is logged and makes
notification fall back to the configured admin email, and that much is
non-fatal; but there is no fallback to the raw numeric sample key for the
output label: the parse returns an empty label list, and merging any unit
whose first filename parses then raises an uncaught IndexError, fatal to
the run and the pass. -/
theorem missing_sheet_email_fallback_only (admin : String) (use_ss : Bool)
    (currentDir : String) (samples : List String) (s0 : String)
    (rest : List String) (keep : Bool) (fe ge : String → Bool)
    (xf : List String → Bool) (frag : String → List Nat) (en : String) (n : Nat)
    (hs : samples = s0 :: rest)
    (h1 : expName s0 = some en) (h2 : sampleNum s0 = some n) :
    parse_sample_sheet none admin use_ss = .ok ([], .str admin) ∧
    merge_files currentDir samples keep [] fe ge xf frag =
      .error (.uncaught .indexError) := by
  refine ⟨rfl, ?_⟩
  subst hs
  simp [merge_files, h1, h2, pyIndex_nil]

/-- Witness for the amended C5 on a concrete run. -/
theorem missing_sheet_email_fallback_only_witness :
    parse_sample_sheet none "adm" false = .ok ([], .str "adm") ∧
    merge_files "run1" ["A_S1_R1_x.gz"] true [] (fun _ => false) (fun _ => false)
        (fun _ => false) (fun _ => []) = .error (.uncaught .indexError) :=
  missing_sheet_email_fallback_only "adm" false "run1" ["A_S1_R1_x.gz"]
    "A_S1_R1_x.gz" [] true (fun _ => false) (fun _ => false) (fun _ => false)
    (fun _ => []) "A" 1 rfl (by decide) (by decide)

/-- C6 (code bug): the finished-merging notification is sent after the
try-except for every writable directory, not only after a successful merge
and completion record.  In the two-run input below, run2 fails transfer
verification (md5 exit status 1), is never merged and never recorded, yet
the pass still sends the finished-merging mail for run2, addressed with the
stale ss_info of run1.  The second conjunct shows the other face of the same
slip: when the first writable directory fails verification, ss_info is still
unbound after its try block and the pass crashes with NameError. -/
theorem finished_mail_sent_unconditionally :
    mainPass ⟨"adm", false, true, true⟩ (fun _ => [0]) 0 []
        [⟨"run1", true, 0, fun _ => 0, ["A_S1_R1_x.gz", "A_S1_R2_x.gz"],
          some ["1,s,a"], fun _ => false, fun _ => false, fun _ => false⟩,
         ⟨"run2", true, 1, fun _ => 0, [], none, fun _ => false, fun _ => false,
          fun _ => false⟩] =
      .ok (⟨["run1", "run1"],
            [.finished "run1" (.str "adm"), .incomplete "run2",
             .finished "run2" (.str "adm")],
            [("run1", "A_s_a_R1.fastq.gz", [0]), ("run1", "A_s_a_R2.fastq.gz", [0])],
            [], []⟩,
           some (["s_a"], .str "adm")) ∧
    mainPass ⟨"adm", false, true, true⟩ (fun _ => [0]) 0 []
        [⟨"run2", true, 1, fun _ => 0, [], none, fun _ => false, fun _ => false,
          fun _ => false⟩] =
      .error .nameError :=
  ⟨rfl, rfl⟩
